import Mathlib

/-!
Verification development for the receipt-extraction repository
(source files: receipt_extractor.py and manage_api_key.py).

The Python source is shallowly embedded: pure helpers become Lean
functions over strings and character lists; the effectful per-file
pipeline becomes a function from an explicit description of the
stage outcomes (encode, service call, output write) to a result
value; Python exceptions become Except values; the dict returned by
json.loads becomes an inductive Json value.
-/

set_option maxRecDepth 10000

/-- Brace characters are referred to through named constants. -/
def lbrace : Char := Char.ofNat 123

/-- Closing brace character. -/
def rbrace : Char := Char.ofNat 125

/-- Values produced by the Python json module: null, booleans, numbers
(kept as their source lexeme), strings, arrays, and objects as
insertion-ordered key/value lists (as a Python dict). -/
inductive Json where
  | null : Json
  | bool (b : Bool) : Json
  | num (lex : String) : Json
  | str (s : String) : Json
  | arr (elems : List Json) : Json
  | obj (members : List (String × Json)) : Json
deriving Repr

/-- JSON whitespace characters accepted by the Python json module. -/
def isJsonWs (c : Char) : Bool :=
  c = ' ' || c = '\t' || c = '\n' || c = Char.ofNat 13

/-- Skip JSON whitespace. -/
def skipWs (cs : List Char) : List Char := cs.dropWhile isJsonWs

/-- Dict-style insertion: assigning an existing key replaces its value in
place, a fresh key is appended (CPython dict update order). -/
def insertKey : List (String × Json) → String → Json → List (String × Json)
  | [], k, v => [(k, v)]
  | (k0, v0) :: rest, k, v =>
    if k0 = k then (k, v) :: rest else (k0, v0) :: insertKey rest k v

/-- Value of one hexadecimal digit. -/
def hexDigitVal (c : Char) : Option Nat :=
  if '0' ≤ c && c ≤ '9' then some (c.toNat - 48)
  else if 'a' ≤ c && c ≤ 'f' then some (c.toNat - 87)
  else if 'A' ≤ c && c ≤ 'F' then some (c.toNat - 55)
  else none

/-- Four hexadecimal digits, as used by a backslash-u string escape. -/
def parse4Hex : List Char → Option (Nat × List Char)
  | c1 :: c2 :: c3 :: c4 :: rest =>
    match hexDigitVal c1, hexDigitVal c2, hexDigitVal c3, hexDigitVal c4 with
    | some a, some b, some c, some d => some ((((a * 16 + b) * 16 + c) * 16 + d), rest)
    | _, _, _, _ => none
  | _ => none

/-- Body of a JSON string after the opening quote, per the strict-mode
scanner of the Python json module: short escapes, backslash-u escapes
with surrogate-pair combination, and a rejection of unescaped control
characters below 0x20.  Recursion is bounded by a fuel argument. -/
def parseStringBody : Nat → List Char → List Char → Option (String × List Char)
  | 0, _, _ => none
  | fuel + 1, cs, acc =>
    match cs with
    | [] => none
    | '"' :: rest => some (String.mk acc.reverse, rest)
    | '\\' :: rest =>
      match rest with
      | [] => none
      | e :: r2 =>
        if e = '"' then parseStringBody fuel r2 ('"' :: acc)
        else if e = '\\' then parseStringBody fuel r2 ('\\' :: acc)
        else if e = '/' then parseStringBody fuel r2 ('/' :: acc)
        else if e = 'b' then parseStringBody fuel r2 (Char.ofNat 8 :: acc)
        else if e = 'f' then parseStringBody fuel r2 (Char.ofNat 12 :: acc)
        else if e = 'n' then parseStringBody fuel r2 ('\n' :: acc)
        else if e = 'r' then parseStringBody fuel r2 (Char.ofNat 13 :: acc)
        else if e = 't' then parseStringBody fuel r2 ('\t' :: acc)
        else if e = 'u' then
          match parse4Hex r2 with
          | some (n, r3) =>
            if 0xD800 ≤ n && n ≤ 0xDBFF then
              match r3 with
              | '\\' :: 'u' :: r4 =>
                match parse4Hex r4 with
                | some (n2, r5) =>
                  if 0xDC00 ≤ n2 && n2 ≤ 0xDFFF then
                    parseStringBody fuel r5
                      (Char.ofNat (0x10000 + (n - 0xD800) * 0x400 + (n2 - 0xDC00)) :: acc)
                  else parseStringBody fuel r3 (Char.ofNat n :: acc)
                | none => parseStringBody fuel r3 (Char.ofNat n :: acc)
              | _ => parseStringBody fuel r3 (Char.ofNat n :: acc)
            else parseStringBody fuel r3 (Char.ofNat n :: acc)
          | none => none
        else none
    | c :: rest =>
      if c.toNat < 32 then none else parseStringBody fuel rest (c :: acc)

/-- Maximal run of decimal digits. -/
def takeDigits (cs : List Char) : List Char × List Char :=
  (cs.takeWhile Char.isDigit, cs.dropWhile Char.isDigit)

/-- Integer part of the JSON number grammar: a single 0, or a nonzero
digit followed by digits. -/
def parseIntPart : List Char → Option (List Char × List Char)
  | [] => none
  | c :: rest =>
    if c = '0' then some (['0'], rest)
    else if c.isDigit then
      let (ds, r) := takeDigits rest
      some (c :: ds, r)
    else none

/-- Optional fraction part: a dot followed by at least one digit. -/
def parseFracPart (cs : List Char) : List Char × List Char :=
  match cs with
  | '.' :: rest =>
    let (ds, r) := takeDigits rest
    if ds.isEmpty then ([], cs) else ('.' :: ds, r)
  | _ => ([], cs)

/-- Optional exponent part: e or E, an optional sign, and at least one
digit. -/
def parseExpPart (cs : List Char) : List Char × List Char :=
  match cs with
  | c :: rest =>
    if c = 'e' || c = 'E' then
      let (sgn, r1) :=
        match rest with
        | s :: r => if s = '+' || s = '-' then ([s], r) else (([] : List Char), rest)
        | [] => (([] : List Char), rest)
      let (ds, r2) := takeDigits r1
      if ds.isEmpty then ([], cs) else (c :: (sgn ++ ds), r2)
    else ([], cs)
  | [] => ([], cs)

/-- The number regular expression of the Python json scanner, returning
the matched lexeme. -/
def parseNumber (cs : List Char) : Option (String × List Char) :=
  let (sgn, cs1) :=
    match cs with
    | '-' :: r => ((['-'] : List Char), r)
    | _ => (([] : List Char), cs)
  match parseIntPart cs1 with
  | none => none
  | some (ip, cs2) =>
    let (fp, cs3) := parseFracPart cs2
    let (ep, cs4) := parseExpPart cs3
    some (String.mk (sgn ++ ip ++ fp ++ ep), cs4)

mutual

/-- One JSON value at the current (whitespace-free) position, following
the scanner of the Python json module, constants NaN and Infinity
included.  The fuel argument bounds the recursion. -/
def parseValue : Nat → List Char → Option (Json × List Char)
  | 0, _ => none
  | fuel + 1, cs =>
    match cs with
    | [] => none
    | c :: rest =>
      if c = '"' then
        match parseStringBody (rest.length + 1) rest [] with
        | some (s, r) => some (.str s, r)
        | none => none
      else if c = lbrace then parseObjBody fuel (skipWs rest)
      else if c = '[' then parseArrBody fuel (skipWs rest)
      else if ("null".data).isPrefixOf cs then some (.null, cs.drop 4)
      else if ("true".data).isPrefixOf cs then some (.bool true, cs.drop 4)
      else if ("false".data).isPrefixOf cs then some (.bool false, cs.drop 5)
      else
        match parseNumber cs with
        | some (lex, r) => some (.num lex, r)
        | none =>
          if ("NaN".data).isPrefixOf cs then some (.num "NaN", cs.drop 3)
          else if ("Infinity".data).isPrefixOf cs then some (.num "Infinity", cs.drop 8)
          else if ("-Infinity".data).isPrefixOf cs then some (.num "-Infinity", cs.drop 9)
          else none

/-- Object body after the opening brace and whitespace. -/
def parseObjBody : Nat → List Char → Option (Json × List Char)
  | 0, _ => none
  | fuel + 1, cs =>
    match cs with
    | [] => none
    | c :: rest => if c = rbrace then some (.obj [], rest) else parseMembers fuel cs []

/-- Object members, positioned at an expected key. -/
def parseMembers : Nat → List Char → List (String × Json) → Option (Json × List Char)
  | 0, _, _ => none
  | fuel + 1, cs, acc =>
    match cs with
    | '"' :: rest =>
      match parseStringBody (rest.length + 1) rest [] with
      | some (key, r1) =>
        match skipWs r1 with
        | ':' :: r3 =>
          match parseValue fuel (skipWs r3) with
          | some (v, r4) =>
            let acc2 := insertKey acc key v
            match skipWs r4 with
            | ',' :: r6 => parseMembers fuel (skipWs r6) acc2
            | c :: r6 => if c = rbrace then some (.obj acc2, r6) else none
            | [] => none
          | none => none
        | _ => none
      | none => none
    | _ => none

/-- Array body after the opening bracket and whitespace. -/
def parseArrBody : Nat → List Char → Option (Json × List Char)
  | 0, _ => none
  | fuel + 1, cs =>
    match cs with
    | [] => none
    | c :: rest => if c = ']' then some (.arr [], rest) else parseElems fuel cs []

/-- Array elements, positioned at an expected value. -/
def parseElems : Nat → List Char → List Json → Option (Json × List Char)
  | 0, _, _ => none
  | fuel + 1, cs, acc =>
    match parseValue fuel cs with
    | some (v, r) =>
      let acc2 := acc ++ [v]
      match skipWs r with
      | ',' :: r2 => parseElems fuel (skipWs r2) acc2
      | ']' :: r2 => some (.arr acc2, r2)
      | _ => none
    | none => none

end

/-- Model of json.loads: skip leading whitespace, scan one value, and
require that only whitespace remains; on any scan error the result is
none (a JSONDecodeError in Python). -/
def pyJsonLoads (s : String) : Option Json :=
  match parseValue (4 * (s.length + 1)) (skipWs s.data) with
  | some (v, rest) => if (skipWs rest).isEmpty then some v else none
  | none => none

/-- Whether a number lexeme denotes the float zero: its mantissa has a
digit and every mantissa digit is 0 (the exponent cannot change that).
Lexemes without digits (NaN, Infinity) are not zero. -/
def numLexemeIsZero (s : String) : Bool :=
  let mant := s.data.takeWhile (fun c => c != 'e' && c != 'E')
  mant.any Char.isDigit && mant.all (fun c => !c.isDigit || c == '0')

/-- Python truthiness of a json.loads result, as used by the source in
`if extracted_data:` — None, empty containers, empty strings and zero
are falsy. -/
def Json.pyTruthy : Json → Bool
  | .null => false
  | .bool b => b
  | .num lex => !(numLexemeIsZero lex)
  | .str s => !s.data.isEmpty
  | .arr elems => !elems.isEmpty
  | .obj members => !members.isEmpty

/-- Whether a value is a JSON object. -/
def Json.isObj : Json → Bool
  | .obj _ => true
  | _ => false

/-- The span matched by re.search of the pattern brace, any characters,
brace (greedy): from the first opening brace to the last closing brace,
provided the latter comes after the former; otherwise no match. -/
def braceSpan (s : String) : Option String :=
  let cs := s.data
  match cs.findIdx? (fun c => c = lbrace) with
  | none => none
  | some i =>
    match cs.reverse.findIdx? (fun c => c = rbrace) with
    | none => none
    | some jr =>
      let j := cs.length - 1 - jr
      if i < j then some (String.mk ((cs.drop i).take (j - i + 1))) else none

/-- Failure of the response-recovery step in the source: a decode error
on the brace-delimited span (json.loads raised on the span), or the
fixed could-not-find-valid-JSON error raised when re.search found no
span.  Neither carries the full original response text. -/
inductive RecoverErr where
  | decodeError (doc : String) : RecoverErr
  | noJsonFound : RecoverErr
deriving Repr, DecidableEq

/-- Lines 114-128 of receipt_extractor.py: try json.loads on the whole
response; on failure search for the outermost brace span and try
json.loads on it; if the span parse fails the JSONDecodeError
propagates, and with no span a fixed ValueError is raised. -/
def recover (raw : String) : Except RecoverErr Json :=
  match pyJsonLoads raw with
  | some v => .ok v
  | none =>
    match braceSpan raw with
    | some span =>
      match pyJsonLoads span with
      | some v => .ok v
      | none => .error (.decodeError span)
    | none => .error .noJsonFound

/-- Recovery as the claim words it, stated for refinement comparison
only: the stage-1 result is returned only when it is an object,
otherwise stage 2 runs, and a failure carries the original raw text. -/
def recoverClaimed (raw : String) : Except String Json :=
  let stage2 : Except String Json :=
    match braceSpan raw with
    | some span =>
      match pyJsonLoads span with
      | some v => .ok v
      | none => .error raw
    | none => .error raw
  match pyJsonLoads raw with
  | some v => if v.isObj then .ok v else stage2
  | none => stage2

/-- Required field names of the JSON schema in the source. -/
def requiredFieldNames : List String :=
  ["companyName", "vatNumber", "priceWithoutVAT", "vat", "vatRate",
   "priceIncludingVAT", "dateOfSale"]

/-- Schema properties declared with type string. -/
def fieldIsString (k : String) : Bool :=
  k = "companyName" || k = "vatNumber" || k = "dateOfSale"

/-- Schema properties declared with type number. -/
def fieldIsNumber (k : String) : Bool :=
  k = "priceWithoutVAT" || k = "vat" || k = "vatRate" || k = "priceIncludingVAT"

/-- Lookup in an insertion-ordered object. -/
def lookupKey : List (String × Json) → String → Option Json
  | [], _ => none
  | (k0, v) :: rest, k => if k0 = k then some v else lookupKey rest k

/-- A value matches FieldSchema when it is an object carrying every
required field, and every declared field it carries has the declared
type (undeclared extra members are unconstrained). -/
def matchesFieldSchema : Json → Bool
  | .obj members =>
    requiredFieldNames.all (fun k => (lookupKey members k).isSome) &&
      members.all (fun kv =>
        if fieldIsString kv.1 then (match kv.2 with | .str _ => true | _ => false)
        else if fieldIsNumber kv.1 then (match kv.2 with | .num _ => true | _ => false)
        else true)
  | _ => false

/-- The system prompt constant of the source (lines 39-41). -/
def system_prompt : String :=
  "Extract the following details from the provided image of receipt document. First look for VAT identification number (vatNumber) in the document and associated name of the company (companyName).\nEnsure all fields from the schema are populated if the information is present in the document. If a piece of information is not found, you may omit the field or use a suitable placeholder like \x27N/A\x27 if the schema requires it, but prioritize extracting actual values. For numerical values (prices, VAT amount, VAT rate), provide them as numbers (float).\nFor VAT rate, if it\x27s written as e.g. \x2721%\x27, provide the number 21. Also, extract the date of sale (transaction date) from the receipt always in dd.mm.yyyy format. It might be in dd/mm/yyyy or dd.mm.yyyy format on document. If multiple dates are present (e.g., issue date, due date), use the primary transaction sale date."

/-- The json_schema constant of the source (lines 44-81). -/
def json_schema : Json :=
  .obj
    [("type", .str "object"),
     ("required", .arr
        [.str "companyName", .str "vatNumber", .str "priceWithoutVAT", .str "vat",
         .str "vatRate", .str "priceIncludingVAT", .str "dateOfSale"]),
     ("properties", .obj
        [("companyName", .obj
            [("type", .str "string"),
             ("description", .str "The legal name of the company that issued the receipt always associated with the VAT identification number. Legal name always includes legal form (e.g. s.r.o., a.s. etc.)")]),
         ("vatNumber", .obj
            [("type", .str "string"),
             ("description", .str "The VAT identification number of the company.")]),
         ("priceWithoutVAT", .obj
            [("type", .str "number"), ("format", .str "float"),
             ("description", .str "The total price of goods/services before VAT is applied. Use 0.0 if not explicitly found.")]),
         ("vat", .obj
            [("type", .str "number"), ("format", .str "float"),
             ("description", .str "The total VAT amount charged. Use 0.0 if not explicitly found.")]),
         ("vatRate", .obj
            [("type", .str "number"), ("format", .str "float"),
             ("description", .str "The VAT rate as a percentage (e.g., 21 for 21%). Use 0.0 if not explicitly found.")]),
         ("priceIncludingVAT", .obj
            [("type", .str "number"), ("format", .str "float"),
             ("description", .str "The final price including VAT. This is usually the most prominent total amount.")]),
         ("dateOfSale", .obj
            [("type", .str "string"),
             ("description", .str "The date of sale or transaction date from the receipt, in dd.mm.yyyy format.")])])]

/-- Lowercase hexadecimal digit. -/
def hexChar (n : Nat) : Char :=
  if n < 10 then Char.ofNat (48 + n) else Char.ofNat (87 + (n - 10))

/-- A backslash-u escape of a code unit, as emitted by json.dumps with
the default ensure ascii behaviour. -/
def uEsc (n : Nat) : List Char :=
  ['\\', 'u', hexChar (n / 4096 % 16), hexChar (n / 256 % 16), hexChar (n / 16 % 16),
   hexChar (n % 16)]

/-- Escaping of one character by json.dumps (ensure ascii default):
short escapes, backslash-u for the rest of the non-printable or
non-ascii range, surrogate pairs beyond the basic plane. -/
def escAsciiChar (c : Char) : List Char :=
  if c = '"' then ['\\', '"']
  else if c = '\\' then ['\\', '\\']
  else if c = '\n' then ['\\', 'n']
  else if c = Char.ofNat 13 then ['\\', 'r']
  else if c = '\t' then ['\\', 't']
  else if c = Char.ofNat 8 then ['\\', 'b']
  else if c = Char.ofNat 12 then ['\\', 'f']
  else if c.toNat < 32 || 126 < c.toNat then
    if c.toNat ≥ 0x10000 then
      let v := c.toNat - 0x10000
      uEsc (0xD800 + v / 0x400) ++ uEsc (0xDC00 + v % 0x400)
    else uEsc c.toNat
  else [c]

/-- String serialization of json.dumps. -/
def pyEncodeString (s : String) : String :=
  String.mk ('"' :: (s.data.map escAsciiChar).flatten ++ ['"'])

/-- Indentation produced by json.dumps with indent set to 2. -/
def indentStr (lvl : Nat) : String := String.mk (List.replicate (2 * lvl) ' ')

/-- Comma-newline joining of already indented lines. -/
def joinComma (xs : List String) : String := String.intercalate ",\n" xs

mutual

/-- json.dumps with indent set to 2 (the key and item separators then
default to colon-space and comma), at a given nesting level. -/
def dumpsVal (lvl : Nat) : Json → String
  | .null => "null"
  | .bool b => if b then "true" else "false"
  | .num lex => lex
  | .str s => pyEncodeString s
  | .arr elems =>
    match elems with
    | [] => "[]"
    | e :: es =>
      "[\n" ++ joinComma (dumpsArrItems (lvl + 1) (e :: es)) ++ "\n" ++ indentStr lvl ++ "]"
  | .obj members =>
    match members with
    | [] => String.mk [lbrace, rbrace]
    | kv :: kvs =>
      String.mk [lbrace] ++ "\n" ++ joinComma (dumpsObjItems (lvl + 1) (kv :: kvs)) ++ "\n" ++
        indentStr lvl ++ String.mk [rbrace]

/-- Lines of array items at a level. -/
def dumpsArrItems (lvl : Nat) : List Json → List String
  | [] => []
  | e :: es => (indentStr lvl ++ dumpsVal lvl e) :: dumpsArrItems lvl es

/-- Lines of object members at a level. -/
def dumpsObjItems (lvl : Nat) : List (String × Json) → List String
  | [] => []
  | (k, v) :: kvs =>
    (indentStr lvl ++ pyEncodeString k ++ ": " ++ dumpsVal lvl v) :: dumpsObjItems lvl kvs

end

/-- Lines 22-30 of the source: the instruction payload is the system
prompt, a fixed bridge sentence, the schema rendered by json.dumps with
indent 2, and a fixed JSON-only instruction. -/
def create_extraction_prompt (sysPrompt : String) (schema : Json) : String :=
  sysPrompt ++
    "\n\nPlease extract the information according to this JSON schema:\n" ++
    dumpsVal 0 schema ++
    "\n\nReturn ONLY valid JSON that matches this schema. Do not include any explanatory text."

/-- Characters after the last path separator. -/
def basenameChars (cs : List Char) : List Char :=
  (cs.reverse.takeWhile (fun c => c != '/')).reverse

/-- os.path.basename on a posix path. -/
def basename (p : String) : String := String.mk (basenameChars p.data)

/-- The root part of os.path.splitext: everything before the last dot,
unless every character before that dot is itself a dot (then the name
has no extension and is returned whole). -/
def splitextRoot (name : String) : String :=
  let cs := name.data
  let afterDot := (cs.reverse.takeWhile (fun c => c != '.')).length
  if afterDot = cs.length then name
  else
    let k := cs.length - afterDot - 1
    if (cs.take k).any (fun c => c != '.') then String.mk (cs.take k) else name

/-- The extension part of os.path.splitext without its leading dot,
lowercased — the notion of extension the claim about discovery uses. -/
def extLowerNoDot (name : String) : String :=
  let cs := name.data
  let afterDot := (cs.reverse.takeWhile (fun c => c != '.')).length
  if afterDot = cs.length then ""
  else
    let k := cs.length - afterDot - 1
    if (cs.take k).any (fun c => c != '.') then
      String.mk ((cs.drop (k + 1)).map Char.toLower)
    else ""

/-- Lines 134-139 of the source: basename of the image path, extension
removed, plus the json suffix. -/
def get_json_filename (image_path : String) : String :=
  splitextRoot (basename image_path) ++ ".json"

/-- Python truthiness of an optional string (os.environ.get result):
absent and empty are falsy. -/
def pyTruthyOptStr : Option String → Bool
  | none => false
  | some s => !s.data.isEmpty

/-- Value of os.environ.get for the key after the import-time
load_dotenv() call.  Modelled on the documented python-dotenv default
override=False: a variable already present in the process environment
is kept, the configuration-file entry only fills an absent one. -/
def osEnvironGetAfterDotenv (initialEnv fileEntry : Option String) : Option String :=
  match initialEnv with
  | some v => some v
  | none => fileEntry

/-- Line 36 of the source: the credential the job uses is the api_key
argument if truthy, else os.environ.get after dotenv loading. -/
def resolvedApiKey (apiKeyArg initialEnv fileEntry : Option String) : Option String :=
  match apiKeyArg with
  | some k => if k.data.isEmpty then osEnvironGetAfterDotenv initialEnv fileEntry else some k
  | none => osEnvironGetAfterDotenv initialEnv fileEntry

/-- Credential resolution as the claim words it, stated for refinement
comparison only: explicit override first, then the configuration-file
entry, then the process environment variable. -/
def resolvedApiKeyClaimed (apiKeyArg initialEnv fileEntry : Option String) : Option String :=
  match apiKeyArg with
  | some k => some k
  | none =>
    match fileEntry with
    | some v => some v
    | none => initialEnv

/-- The uncaught Python exceptions the per-file pipeline can raise: an
OS error from reading the image or writing the output file. -/
inductive PyExn where
  | ioError : PyExn
deriving Repr, DecidableEq

/-- Outcome description of the effectful stages for one file: whether
the image read and base64 encode succeeds, what the service call
returns (or that it raises), and whether the output write succeeds. -/
structure FileBehavior where
  encodeOk : Bool
  response : Except Unit String
  writeOk : Bool

/-- The value of extracted_data computed inside the try block of
extract_receipt_data once the service call returned or raised: the
recovered value, or none when the call raised or recovery failed (the
except clause prints and returns None). -/
def parsedData (b : FileBehavior) : Option Json :=
  match b.response with
  | .error _ => none
  | .ok raw =>
    match recover raw with
    | .ok v => some v
    | .error _ => none

/-- Lines 32-132 of the source: encode_image runs before the try block,
so its failure propagates; every failure inside the try block (service
call, response recovery) is caught and turned into a None return. -/
def extractReceiptData (b : FileBehavior) : Except PyExn (Option Json) :=
  if b.encodeOk then .ok (parsedData b) else .error .ioError

/-- Whether the pipeline for a file reaches the success branch: the
service call returns, recovery succeeds, and the value is truthy. -/
def fileSucceeds (b : FileBehavior) : Bool :=
  match parsedData b with
  | some v => v.pyTruthy
  | none => false

/-- Running tally of the batch loop: successes, output files written,
and service calls attempted. -/
structure BatchState where
  successCount : Nat
  written : List String
  calls : Nat
deriving Repr, DecidableEq

/-- One iteration of the loop in process_all_receipts: an encode failure
raises (aborting the loop with the state reached so far); a caught
failure or a falsy value prints the failure line and moves on; a truthy
value is written to the derived json filename — a write failure
raises. -/
def stepFile (beh : String → FileBehavior) (st : BatchState) (name : String) :
    Except (PyExn × BatchState) BatchState :=
  match extractReceiptData (beh name) with
  | .error e => .error (e, st)
  | .ok data =>
    match data with
    | some v =>
      if v.pyTruthy then
        if (beh name).writeOk then
          .ok ⟨st.successCount + 1, st.written ++ [get_json_filename name], st.calls + 1⟩
        else .error (.ioError, ⟨st.successCount, st.written, st.calls + 1⟩)
      else .ok ⟨st.successCount, st.written, st.calls + 1⟩
    | none => .ok ⟨st.successCount, st.written, st.calls + 1⟩

/-- The extension allow-list of the source (without the glob stars). -/
def image_extensions : List String := ["jpg", "jpeg", "png", "gif", "bmp"]

/-- Uppercase a string, as ext.upper() does on these patterns. -/
def toUpperStr (s : String) : String := String.mk (s.data.map Char.toUpper)

/-- Whether a directory entry matches the glob pattern star-dot-ext on a
posix filesystem: matching is case sensitive, and glob does not match
hidden entries with a pattern that does not itself start with a dot. -/
def matchesPat (ext : String) (name : String) : Bool :=
  !(("." : String).data.isPrefixOf name.data) && (("." ++ ext).data.isSuffixOf name.data)

/-- Lines 144-150 of the source: for each allow-list entry, all entries
matching the lowercase pattern, then all matching the uppercase
pattern, are appended. -/
def discoverImages (listing : List String) : List String :=
  image_extensions.foldl
    (fun acc ext =>
      (acc ++ listing.filter (matchesPat ext)) ++ listing.filter (matchesPat (toUpperStr ext)))
    []

/-- Discovery as the claim words it, stated for refinement comparison
only: every entry whose extension, lowercased, is in the allow-list. -/
def discoverImagesClaimed (listing : List String) : List String :=
  listing.filter (fun name => image_extensions.contains (extLowerNoDot name))

/-- Whether some pattern of the source discovers the entry. -/
def globMatched (name : String) : Bool :=
  image_extensions.any (fun e => matchesPat e name || matchesPat (toUpperStr e) name)

/-- Lines 141-182 of the source: discover images, return directly when
none were found, else run the per-file loop from an empty tally; an
uncaught per-file exception aborts the whole loop. -/
def processAllReceipts (listing : List String) (beh : String → FileBehavior) :
    Except (PyExn × BatchState) BatchState :=
  let files := discoverImages listing
  if files.isEmpty then .ok ⟨0, [], 0⟩
  else files.foldlM (stepFile beh) ⟨0, [], 0⟩

/-- Lines 184-193 and 217-219 of the source: batch mode first requires a
truthy GROQ_API_KEY in the environment (which dotenv loading may have
filled from the configuration file) and returns before any processing
otherwise; none models that early return. -/
def mainBatch (initialEnv fileEntry : Option String) (listing : List String)
    (beh : String → FileBehavior) : Option (Except (PyExn × BatchState) BatchState) :=
  if pyTruthyOptStr (osEnvironGetAfterDotenv initialEnv fileEntry) then
    some (processAllReceipts listing beh)
  else none

/-- Service calls attempted by a batch entry run. -/
def mainBatchCalls : Option (Except (PyExn × BatchState) BatchState) → Nat
  | none => 0
  | some (.ok st) => st.calls
  | some (.error (_, st)) => st.calls

/-- Output files written by a batch entry run. -/
def mainBatchWritten : Option (Except (PyExn × BatchState) BatchState) → List String
  | none => []
  | some (.ok st) => st.written
  | some (.error (_, st)) => st.written

/-- Observable outcome of single-file mode. -/
inductive SingleOutcome where
  | noApiKey : SingleOutcome
  | notFound : SingleOutcome
  | saved (jsonFile : String) : SingleOutcome
  | extractFailed : SingleOutcome
  | raised (e : PyExn) : SingleOutcome
deriving Repr, DecidableEq

/-- Lines 184-216 of the source: single-file mode checks the credential,
then path existence, runs the pipeline once, and on a truthy result
writes the derived json file; a falsy result prints the failed-to-
extract message. -/
def mainSingle (cred : Option String) (pathExists : Bool) (path : String)
    (b : FileBehavior) : SingleOutcome :=
  if !(pyTruthyOptStr cred) then .noApiKey
  else if !pathExists then .notFound
  else
    match extractReceiptData b with
    | .error e => .raised e
    | .ok none => .extractFailed
    | .ok (some v) =>
      if v.pyTruthy then
        if b.writeOk then .saved (get_json_filename path) else .raised .ioError
      else .extractFailed

/-- Lines 14-19 and 25-29 of manage_api_key.py: a stored value longer
than 8 characters is shown as its first 4 and last 4 characters with
the middle replaced by stars; a value of at most 8 characters is fully
replaced by stars. -/
def maskKey (key : String) : String :=
  if 8 < key.length then
    String.mk (key.data.take 4) ++ String.mk (List.replicate (key.length - 8) '*') ++
      String.mk (key.data.drop (key.length - 4))
  else String.mk (List.replicate key.length '*')

/-!
Evaluation checks of the embedded json.loads model, the brace-span
scan, the dumps serializer, the filename mapping and the masking, at
concrete inputs.
-/

example : pyJsonLoads "null" = some Json.null := by rfl
example : pyJsonLoads " 42 " = some (Json.num "42") := by rfl
example : pyJsonLoads "[0]" = some (Json.arr [Json.num "0"]) := by rfl
example : pyJsonLoads "0123" = none := by rfl
example : pyJsonLoads "\x7b\x7d" = some (Json.obj []) := by rfl
example : pyJsonLoads "\x7b\"a\": 1, \"b\": [true, -2.5e3]\x7d" =
    some (Json.obj [("a", Json.num "1"), ("b", Json.arr [Json.bool true, Json.num "-2.5e3"])]) := by
  rfl
example : pyJsonLoads "\x7b\"a\": 1\x7d x" = none := by rfl
example : pyJsonLoads "\"a\\u0041b\"" = some (Json.str "aAb") := by rfl
example : braceSpan "ab" = none := by rfl
example : braceSpan "a\x7bx\x7db\x7by\x7dc" = some "\x7bx\x7db\x7by\x7d" := by rfl
example : braceSpan "\x7d\x7b" = none := by rfl
example : braceSpan "pre \x7b\"a\": 1\x7d post" = some "\x7b\"a\": 1\x7d" := by rfl
example : dumpsVal 0 (Json.obj []) = "\x7b\x7d" := by rfl
example :
    dumpsVal 0 (Json.obj [("a", Json.arr [Json.num "1", Json.str "x"])]) =
      "\x7b\n  \"a\": [\n    1,\n    \"x\"\n  ]\n\x7d" := by rfl
example : get_json_filename "photos/receipt.jpg" = "receipt.json" := by rfl
example : get_json_filename ".bashrc" = ".bashrc.json" := by rfl
example : get_json_filename "a.tar.gz" = "a.tar.json" := by rfl
example : maskKey "gsk_abcdefgh1234" = "gsk_********1234" := by rfl
example : maskKey "short" = "*****" := by rfl

/-- C2 counterexample: on the raw text consisting of a JSON array, the
code returns the stage-1 parse directly even though it is not an
object, while the claimed recovery (object required at stage 1, then
stage 2, then a failure carrying the raw text) fails. -/
theorem C2_recover_counterexample :
    recover "[0]" = Except.ok (Json.arr [Json.num "0"]) ∧
    recoverClaimed "[0]" = Except.error "[0]" := ⟨rfl, rfl⟩

/-- C2 amended: recovery has exactly two ordered stages — a strict
parse of the whole text returned directly whenever it parses,
whatever value it yields; otherwise a strict parse of the
first-brace-to-last-brace span; if both fail, recovery fails with a
decode error on the span, or with the fixed no-JSON-found error when
no span exists. -/
theorem C2_recover_two_stage (raw : String) :
    (∀ v, pyJsonLoads raw = some v → recover raw = Except.ok v) ∧
    (pyJsonLoads raw = none → braceSpan raw = none →
      recover raw = Except.error RecoverErr.noJsonFound) ∧
    (∀ span, pyJsonLoads raw = none → braceSpan raw = some span →
      recover raw =
        (match pyJsonLoads span with
         | some v => Except.ok v
         | none => Except.error (RecoverErr.decodeError span))) := by
  refine ⟨?_, ?_, ?_⟩
  · intro v h
    simp [recover, h]
  · intro h1 h2
    simp [recover, h1, h2]
  · intro span h1 h2
    simp [recover, h1, h2]

/-- C2 witness: a noisy response where stage 1 fails and the code
recovers the embedded object at stage 2. -/
theorem C2_recover_two_stage_witness :
    recover "noise \x7b\"vat\": 1\x7d end" = Except.ok (Json.obj [("vat", Json.num "1")]) :=
  ((C2_recover_two_stage "noise \x7b\"vat\": 1\x7d end").2.2 "\x7b\"vat\": 1\x7d" rfl rfl).trans rfl

/-- C3: when the raw response text is exactly a valid JSON object
matching FieldSchema, recovery returns precisely the record obtained by
parsing that text directly. -/
theorem C3_recover_round_trip (raw : String) (v : Json)
    (h1 : pyJsonLoads raw = some v) (h2 : matchesFieldSchema v = true) :
    recover raw = Except.ok v := by
  clear h2
  simp [recover, h1]

/-- C3 witness at the schema-conforming response of the spec. -/
theorem C3_recover_round_trip_witness :
    recover "\x7b\"companyName\":\"Acme s.r.o.\",\"vatNumber\":\"SK123\",\"priceWithoutVAT\":10.0,\"vat\":2.1,\"vatRate\":21,\"priceIncludingVAT\":12.1,\"dateOfSale\":\"01.02.2024\"\x7d" =
      Except.ok
        (Json.obj
          [("companyName", Json.str "Acme s.r.o."), ("vatNumber", Json.str "SK123"),
           ("priceWithoutVAT", Json.num "10.0"), ("vat", Json.num "2.1"),
           ("vatRate", Json.num "21"), ("priceIncludingVAT", Json.num "12.1"),
           ("dateOfSale", Json.str "01.02.2024")]) :=
  C3_recover_round_trip _ _ rfl rfl

/-- C4 counterexample: with no override, an environment value and a
configuration-file value both present, the code resolves to the
environment value (python-dotenv does not override an existing
variable), while the claimed priority resolves to the file value. -/
theorem C4_credential_counterexample :
    resolvedApiKey none (some "ENVKEY") (some "FILEKEY") = some "ENVKEY" ∧
    resolvedApiKeyClaimed none (some "ENVKEY") (some "FILEKEY") = some "FILEKEY" ∧
    (some "ENVKEY" : Option String) ≠ some "FILEKEY" := by
  refine ⟨rfl, rfl, by decide⟩

/-- C4 amended: the credential is the explicit nonempty override if
given; otherwise the process environment variable if present at
process start; otherwise the configuration-file entry. -/
theorem C4_credential_priority (ov initialEnv fileEntry : Option String) :
    (∀ k, ov = some k → k.data.isEmpty = false →
      resolvedApiKey ov initialEnv fileEntry = some k) ∧
    ((ov = none ∨ ov = some "") → ∀ e, initialEnv = some e →
      resolvedApiKey ov initialEnv fileEntry = some e) ∧
    ((ov = none ∨ ov = some "") → initialEnv = none →
      resolvedApiKey ov initialEnv fileEntry = fileEntry) := by
  refine ⟨?_, ?_, ?_⟩
  · intro k hk hne
    subst hk
    simp [resolvedApiKey, hne]
  · rintro (h | h) e he <;> subst h <;> subst he <;> rfl
  · rintro (h | h) he <;> subst h <;> subst he <;> rfl

/-- C4 witness: each of the three resolution tiers at concrete values. -/
theorem C4_credential_priority_witness :
    resolvedApiKey (some "OVERRIDE") (some "E") (some "F") = some "OVERRIDE" ∧
    resolvedApiKey none (some "E") (some "F") = some "E" ∧
    resolvedApiKey none none (some "F") = some "F" :=
  ⟨(C4_credential_priority (some "OVERRIDE") (some "E") (some "F")).1 "OVERRIDE" rfl rfl,
   (C4_credential_priority none (some "E") (some "F")).2.1 (Or.inl rfl) "E" rfl,
   (C4_credential_priority none none (some "F")).2.2 (Or.inl rfl) rfl⟩

/-- C5: with no credential resolvable from any source, batch mode
returns at the precondition check — no file is processed, no output
file is written, and no service call is attempted. -/
theorem C5_missing_credential_fatal (initialEnv fileEntry : Option String)
    (listing : List String) (beh : String → FileBehavior)
    (h1 : initialEnv = none) (h2 : fileEntry = none) :
    mainBatch initialEnv fileEntry listing beh = none ∧
    mainBatchCalls (mainBatch initialEnv fileEntry listing beh) = 0 ∧
    mainBatchWritten (mainBatch initialEnv fileEntry listing beh) = [] := by
  subst h1; subst h2
  exact ⟨rfl, rfl, rfl⟩

/-- C5 witness at a directory with one image. -/
theorem C5_missing_credential_fatal_witness :
    mainBatch none none ["a.jpg"] (fun _ => ⟨true, Except.ok "x", true⟩) = none ∧
    mainBatchCalls (mainBatch none none ["a.jpg"] (fun _ => ⟨true, Except.ok "x", true⟩)) = 0 ∧
    mainBatchWritten (mainBatch none none ["a.jpg"] (fun _ => ⟨true, Except.ok "x", true⟩)) = [] :=
  C5_missing_credential_fatal none none ["a.jpg"] (fun _ => ⟨true, Except.ok "x", true⟩) rfl rfl

/-- C8: the instruction payload is a pure function of the policy text
and the schema — equal inputs give a character-identical payload. -/
theorem C8_prompt_pure (p1 p2 : String) (s1 s2 : Json) (hp : p1 = p2) (hs : s1 = s2) :
    (create_extraction_prompt p1 s1).data = (create_extraction_prompt p2 s2).data := by
  subst hp; subst hs; rfl

/-- C8 witness at the fixed policy and schema of the source. -/
theorem C8_prompt_pure_witness :
    (create_extraction_prompt system_prompt json_schema).data =
      (create_extraction_prompt system_prompt json_schema).data :=
  C8_prompt_pure system_prompt system_prompt json_schema json_schema rfl rfl

/-- C10: a response recovering to the empty object is falsy in Python,
so the pipeline writes no output file and counts the file as a failure
in batch mode, and single-file mode reports extraction failure, even
though parsing succeeded. -/
theorem C10_empty_object_failure (name raw : String) (b : FileBehavior) (st : BatchState)
    (henc : b.encodeOk = true) (hresp : b.response = Except.ok raw)
    (hparse : pyJsonLoads raw = some (Json.obj [])) :
    stepFile (fun _ => b) st name = Except.ok ⟨st.successCount, st.written, st.calls + 1⟩ ∧
    mainSingle (some "key") true name b = SingleOutcome.extractFailed := by
  have hdata : parsedData b = some (Json.obj []) := by
    simp [parsedData, hresp, recover, hparse]
  have hext : extractReceiptData b = Except.ok (some (Json.obj [])) := by
    simp [extractReceiptData, henc, hdata]
  have hgate : pyTruthyOptStr (some "key") = true := by decide
  constructor
  · simp [stepFile, hext, Json.pyTruthy]
  · simp [mainSingle, hgate, hext, Json.pyTruthy]

/-- C10 witness: the literal empty-object response. -/
theorem C10_empty_object_failure_witness :
    stepFile (fun _ => (⟨true, Except.ok "\x7b\x7d", true⟩ : FileBehavior)) ⟨0, [], 0⟩ "r.jpg" =
      Except.ok ⟨0, [], 1⟩ ∧
    mainSingle (some "key") true "r.jpg" ⟨true, Except.ok "\x7b\x7d", true⟩ =
      SingleOutcome.extractFailed :=
  C10_empty_object_failure "r.jpg" "\x7b\x7d" ⟨true, Except.ok "\x7b\x7d", true⟩ ⟨0, [], 0⟩
    rfl rfl rfl

/-- Prepending entries that all satisfy the predicate commutes with
takeWhile. -/
theorem takeWhile_append_all {p : Char → Bool} (l1 l2 : List Char)
    (h : ∀ a ∈ l1, p a = true) :
    (l1 ++ l2).takeWhile p = l1 ++ l2.takeWhile p := by
  induction l1 with
  | nil => simp
  | cons a t ih =>
    have ha : p a = true := h a (by simp)
    simp [List.takeWhile_cons, ha, ih (fun x hx => h x (by simp [hx]))]

/-- takeWhile keeps a list all of whose entries satisfy the predicate. -/
theorem takeWhile_all {p : Char → Bool} (l : List Char)
    (h : ∀ a ∈ l, p a = true) :
    l.takeWhile p = l := by
  induction l with
  | nil => rfl
  | cons a t ih =>
    simp [List.takeWhile_cons, h a (by simp), ih (fun x hx => h x (by simp [hx]))]

/-- Appending a directory and a separator in front of a slash-free name
does not change the basename characters. -/
theorem basenameChars_append (d n : List Char) (h : '/' ∉ n) :
    basenameChars (d ++ '/' :: n) = n := by
  have hall : ∀ a ∈ n.reverse, (a != '/') = true := by
    intro a ha
    have hmem : a ∈ n := List.mem_reverse.mp ha
    have hne : a ≠ '/' := fun hEq => h (hEq ▸ hmem)
    simpa [bne_iff_ne] using hne
  have hrev : (d ++ '/' :: n).reverse = n.reverse ++ '/' :: d.reverse := by
    simp
  simp only [basenameChars, hrev, takeWhile_append_all _ _ hall]
  simp [List.takeWhile_cons]

/-- A slash-free character list is its own basename. -/
theorem basenameChars_no_slash (n : List Char) (h : '/' ∉ n) :
    basenameChars n = n := by
  have hall : ∀ a ∈ n.reverse, (a != '/') = true := by
    intro a ha
    have hmem : a ∈ n := List.mem_reverse.mp ha
    have hne : a ≠ '/' := fun hEq => h (hEq ▸ hmem)
    simpa [bne_iff_ne] using hne
  simp only [basenameChars, takeWhile_all _ hall, List.reverse_reverse]

/-- Characters of a string concatenation. -/
theorem strDataAppend (s t : String) : (s ++ t).data = s.data ++ t.data := by
  cases s; cases t; rfl

/-- basename strips any directory prefix from a slash-free name. -/
theorem basename_concat (dir name : String) (h : '/' ∉ name.data) :
    basename (dir ++ "/" ++ name) = name := by
  have hd : (dir ++ "/" ++ name).data = dir.data ++ ('/' :: name.data) := by
    rw [strDataAppend, strDataAppend]
    show dir.data ++ ['/'] ++ name.data = dir.data ++ ('/' :: name.data)
    simp
  simp only [basename, hd, basenameChars_append _ _ h]

/-- basename is the identity on slash-free names. -/
theorem basename_no_slash (name : String) (h : '/' ∉ name.data) :
    basename name = name := by
  simp only [basename, basenameChars_no_slash _ h]

/-- C6 counterexample: the mixed-case name receipt.Jpg has extension
jpg under case-insensitive comparison, so the claimed discovery keeps
it, but the source only globs the all-lowercase and all-uppercase
patterns, so the code discovers nothing. -/
theorem C6_discovery_counterexample :
    discoverImagesClaimed ["receipt.Jpg"] = ["receipt.Jpg"] ∧
    discoverImages ["receipt.Jpg"] = [] := ⟨rfl, rfl⟩

/-- Membership in the glob accumulation fold. -/
theorem mem_discover_aux (name : String) (listing : List String) :
    ∀ (exts : List String) (acc : List String),
      (name ∈ exts.foldl
          (fun a e =>
            (a ++ listing.filter (matchesPat e)) ++ listing.filter (matchesPat (toUpperStr e)))
          acc ↔
        name ∈ acc ∨ (name ∈ listing ∧
          exts.any (fun e => matchesPat e name || matchesPat (toUpperStr e) name) = true)) := by
  intro exts
  induction exts with
  | nil => intro acc; simp
  | cons e rest ih =>
    intro acc
    simp only [List.foldl_cons, List.any_cons]
    rw [ih]
    simp only [List.mem_append, List.mem_filter, Bool.or_eq_true]
    tauto

/-- C6 amended: discovery returns exactly the directory entries matched
by one of the case-sensitive patterns star-dot-ext or star-dot-EXT for
an allow-list extension (all-lowercase or all-uppercase extensions;
mixed-case extensions are not discovered), and with no match the batch
reports the zero-file condition and returns without error. -/
theorem C6_discovery_case_sensitive (listing : List String) (name : String)
    (beh : String → FileBehavior) :
    (name ∈ discoverImages listing ↔ name ∈ listing ∧ globMatched name = true) ∧
    (discoverImages listing = [] →
      processAllReceipts listing beh = Except.ok ⟨0, [], 0⟩) := by
  constructor
  · have h := mem_discover_aux name listing image_extensions []
    simpa [discoverImages, globMatched] using h
  · intro h
    simp [processAllReceipts, h]

/-- C6 witness: a directory with no matching entry makes the batch
return without error after reporting zero files. -/
theorem C6_discovery_case_sensitive_witness :
    processAllReceipts ["notes.txt"] (fun _ => ⟨true, Except.ok "x", true⟩) =
      Except.ok ⟨0, [], 0⟩ :=
  (C6_discovery_case_sensitive ["notes.txt"] "notes.txt"
    (fun _ => ⟨true, Except.ok "x", true⟩)).2 rfl

/-- C7: the derived output path is a pure function of the basename of
the image path — a directory prefix does not change it, it equals the
basename with its extension replaced by the json suffix, and repeating
the computation yields the same result. -/
theorem C7_output_name_pure (dir name : String) (h : '/' ∉ name.data) :
    get_json_filename (dir ++ "/" ++ name) = get_json_filename name ∧
    get_json_filename name = splitextRoot name ++ ".json" ∧
    get_json_filename (dir ++ "/" ++ name) =
      get_json_filename (basename (dir ++ "/" ++ name)) ∧
    get_json_filename (dir ++ "/" ++ name) = get_json_filename (dir ++ "/" ++ name) := by
  have hb : basename (dir ++ "/" ++ name) = name := basename_concat dir name h
  have hbn : basename name = name := basename_no_slash name h
  have h1 : get_json_filename (dir ++ "/" ++ name) = get_json_filename name := by
    simp only [get_json_filename, hb, hbn]
  exact ⟨h1, by simp only [get_json_filename, hbn], by rw [hb]; exact h1, rfl⟩

/-- C7 witness: a directory prefix on a concrete image name. -/
theorem C7_output_name_pure_witness :
    get_json_filename ("photos" ++ "/" ++ "receipt.jpg") = get_json_filename "receipt.jpg" :=
  (C7_output_name_pure "photos" "receipt.jpg" (by decide)).1

/-- getD on an append, index inside the left part. -/
theorem getD_append_left {α : Type} (l1 l2 : List α) (i : Nat) (d : α)
    (h : i < l1.length) :
    (l1 ++ l2).getD i d = l1.getD i d := by
  induction l1 generalizing i with
  | nil => simp at h
  | cons a t ih =>
    cases i with
    | zero => rfl
    | succ m =>
      have hm : m < t.length := by simpa using h
      simpa [List.getD_cons_succ] using ih m hm

/-- getD on an append, index beyond the left part. -/
theorem getD_append_right {α : Type} (l1 l2 : List α) (i : Nat) (d : α)
    (h : l1.length ≤ i) :
    (l1 ++ l2).getD i d = l2.getD (i - l1.length) d := by
  induction l1 generalizing i with
  | nil => simp
  | cons a t ih =>
    cases i with
    | zero => simp at h
    | succ m =>
      have hm : t.length ≤ m := by simpa using h
      simpa [List.getD_cons_succ, Nat.succ_sub_succ] using ih m hm

/-- getD inside a replicate. -/
theorem getD_replicate {α : Type} (n i : Nat) (c d : α) (h : i < n) :
    (List.replicate n c).getD i d = c := by
  induction n generalizing i with
  | zero => omega
  | succ m ih =>
    cases i with
    | zero => rfl
    | succ j =>
      simpa [List.replicate_succ, List.getD_cons_succ] using ih j (by omega)

/-- getD inside a take. -/
theorem getD_take {α : Type} (l : List α) (n i : Nat) (d : α) (h : i < n) :
    (l.take n).getD i d = l.getD i d := by
  induction l generalizing n i with
  | nil => simp
  | cons a t ih =>
    cases n with
    | zero => omega
    | succ m =>
      cases i with
      | zero => rfl
      | succ j =>
        simpa [List.getD_cons_succ] using ih m j (by omega)

/-- getD after a drop. -/
theorem getD_drop {α : Type} (l : List α) (n i : Nat) (d : α) :
    (l.drop n).getD i d = l.getD (n + i) d := by
  induction l generalizing n with
  | nil => simp
  | cons a t ih =>
    cases n with
    | zero => simp
    | succ m =>
      simp [List.getD_cons_succ, Nat.succ_add, ih m]

/-- C9: masking preserves the length, and character-by-character a key
longer than 8 characters shows its first 4 and last 4 characters with
every middle character replaced by a star, while a key of at most 8
characters has every character replaced by a star. -/
theorem C9_mask_spec (key : String) (i : Nat) (h : i < key.length) :
    (maskKey key).length = key.length ∧
    (maskKey key).data.getD i '?' =
      (if 8 < key.length ∧ (i < 4 ∨ key.length - 4 ≤ i) then key.data.getD i '?'
       else '*') := by
  have hdl : key.data.length = key.length := rfl
  by_cases h8 : 8 < key.length
  · have hmask : (maskKey key).data =
        key.data.take 4 ++
          (List.replicate (key.length - 8) '*' ++ key.data.drop (key.length - 4)) := by
      simp only [maskKey, if_pos h8]
      rw [strDataAppend, strDataAppend]
      simp [List.append_assoc]
    have hlen4 : (key.data.take 4).length = 4 := by
      rw [List.length_take]
      omega
    constructor
    · show (maskKey key).data.length = key.length
      rw [hmask]
      simp only [List.length_append, List.length_replicate, List.length_drop, hlen4, hdl]
      omega
    · rw [hmask]
      by_cases h4 : i < 4
      · rw [getD_append_left _ _ _ _ (by rw [hlen4]; omega), getD_take _ _ _ _ h4,
          if_pos ⟨h8, Or.inl h4⟩]
      · by_cases hr : key.length - 4 ≤ i
        · rw [getD_append_right _ _ _ _ (by rw [hlen4]; omega), hlen4,
            getD_append_right _ _ _ _ (by simp only [List.length_replicate]; omega),
            List.length_replicate, getD_drop]
          have harg : key.length - 4 + (i - 4 - (key.length - 8)) = i := by omega
          rw [harg, if_pos ⟨h8, Or.inr hr⟩]
        · rw [getD_append_right _ _ _ _ (by rw [hlen4]; omega), hlen4,
            getD_append_left _ _ _ _ (by simp only [List.length_replicate]; omega),
            getD_replicate _ _ _ _ (by omega)]
          rw [if_neg (fun hcon => hcon.2.elim (fun hlt => h4 hlt) (fun hge => hr hge))]
  · have hmask : (maskKey key).data = List.replicate key.length '*' := by
      simp only [maskKey, if_neg h8]
    constructor
    · show (maskKey key).data.length = key.length
      rw [hmask, List.length_replicate]
    · rw [hmask, getD_replicate _ _ _ _ (by omega),
        if_neg (fun hcon => h8 hcon.1)]

/-- C9 witness at a 12-character key and the middle position 6. -/
theorem C9_mask_spec_witness :
    (maskKey "ABCDEFGHIJKL").length = ("ABCDEFGHIJKL" : String).length ∧
    (maskKey "ABCDEFGHIJKL").data.getD 6 '?' =
      (if 8 < ("ABCDEFGHIJKL" : String).length ∧
          (6 < 4 ∨ ("ABCDEFGHIJKL" : String).length - 4 ≤ 6) then
        ("ABCDEFGHIJKL" : String).data.getD 6 '?'
       else '*') :=
  C9_mask_spec "ABCDEFGHIJKL" 6 (by decide)

/-- C1 counterexample: a batch of two discovered images where the first
file's image read fails at the encode stage, which is outside the
try block of extract_receipt_data — the exception aborts the whole
batch before any service call, so the second file is never attempted
and the run does not complete over all discovered files. -/
theorem C1_batch_abort_counterexample :
    processAllReceipts ["a.jpg", "b.jpg"]
        (fun n =>
          if n = "a.jpg" then ⟨false, Except.ok "x", true⟩
          else ⟨true, Except.ok "\x7b\"vat\": 1\x7d", true⟩) =
      Except.error (PyExn.ioError, ⟨0, [], 0⟩) := by rfl

/-- The per-file loop completes and tallies exactly the successes when
every file encodes and (when reached) writes successfully. -/
theorem foldStep_ok (beh : String → FileBehavior) (files : List String) :
    ∀ st : BatchState,
      (∀ n ∈ files, (beh n).encodeOk = true) →
      (∀ n ∈ files, (beh n).writeOk = true) →
      files.foldlM (stepFile beh) st =
        Except.ok
          ⟨st.successCount + (files.filter (fun n => fileSucceeds (beh n))).length,
           st.written ++ (files.filter (fun n => fileSucceeds (beh n))).map get_json_filename,
           st.calls + files.length⟩ := by
  induction files with
  | nil =>
    intro st _ _
    simp only [List.foldlM_nil, List.filter_nil, List.length_nil, List.map_nil,
      Nat.add_zero, List.append_nil]
    rfl
  | cons n rest ih =>
    intro st henc hwr
    have hn : (beh n).encodeOk = true := henc n (by simp)
    have hwn : (beh n).writeOk = true := hwr n (by simp)
    have hrest1 : ∀ m ∈ rest, (beh m).encodeOk = true := fun m hm => henc m (by simp [hm])
    have hrest2 : ∀ m ∈ rest, (beh m).writeOk = true := fun m hm => hwr m (by simp [hm])
    have hext : extractReceiptData (beh n) = Except.ok (parsedData (beh n)) := by
      simp [extractReceiptData, hn]
    rw [List.foldlM_cons]
    rcases hp : parsedData (beh n) with _ | v
    · have hstep : stepFile beh st n =
          Except.ok ⟨st.successCount, st.written, st.calls + 1⟩ := by
        simp [stepFile, hext, hp]
      have hfail : fileSucceeds (beh n) = false := by
        simp [fileSucceeds, hp]
      rw [hstep]
      show rest.foldlM (stepFile beh) ⟨st.successCount, st.written, st.calls + 1⟩ = _
      rw [ih _ hrest1 hrest2]
      simp only [List.filter_cons, hfail, Bool.false_eq_true, if_false, List.length_cons]
      have hc : st.calls + 1 + rest.length = st.calls + (rest.length + 1) := by omega
      rw [hc]
    · cases htr : v.pyTruthy with
      | false =>
        have hstep : stepFile beh st n =
            Except.ok ⟨st.successCount, st.written, st.calls + 1⟩ := by
          simp [stepFile, hext, hp, htr]
        have hfail : fileSucceeds (beh n) = false := by
          simp [fileSucceeds, hp, htr]
        rw [hstep]
        show rest.foldlM (stepFile beh) ⟨st.successCount, st.written, st.calls + 1⟩ = _
        rw [ih _ hrest1 hrest2]
        simp only [List.filter_cons, hfail, Bool.false_eq_true, if_false, List.length_cons]
        have hc : st.calls + 1 + rest.length = st.calls + (rest.length + 1) := by omega
        rw [hc]
      | true =>
        have hstep : stepFile beh st n =
            Except.ok
              ⟨st.successCount + 1, st.written ++ [get_json_filename n], st.calls + 1⟩ := by
          simp [stepFile, hext, hp, htr, hwn]
        have hok : fileSucceeds (beh n) = true := by
          simp [fileSucceeds, hp, htr]
        rw [hstep]
        show rest.foldlM (stepFile beh)
            ⟨st.successCount + 1, st.written ++ [get_json_filename n], st.calls + 1⟩ = _
        rw [ih _ hrest1 hrest2]
        simp only [List.filter_cons, hok, if_true, List.length_cons, List.map_cons]
        have hs : st.successCount + 1 +
              (rest.filter (fun m => fileSucceeds (beh m))).length =
            st.successCount +
              ((rest.filter (fun m => fileSucceeds (beh m))).length + 1) := by omega
        have hc : st.calls + 1 + rest.length = st.calls + (rest.length + 1) := by omega
        have hw : (st.written ++ [get_json_filename n]) ++
              (rest.filter (fun m => fileSucceeds (beh m))).map get_json_filename =
            st.written ++ (get_json_filename n ::
              (rest.filter (fun m => fileSucceeds (beh m))).map get_json_filename) := by
          simp
        rw [hs, hc, hw]

/-- C1 amended: a failure of the service call or of response recovery
is caught inside extract_receipt_data and tallied as a per-file
failure without interrupting the remaining files; but image-encode and
output-write failures are raised outside the isolating try block and
abort the batch.  When every discovered file encodes and writes
successfully, the batch runs to completion over all discovered files,
attempting a service call for each, tallying exactly the files whose
response yields a truthy record, and writing exactly their output
files. -/
theorem C1_batch_isolation (listing : List String) (beh : String → FileBehavior)
    (henc : ∀ n ∈ discoverImages listing, (beh n).encodeOk = true)
    (hwr : ∀ n ∈ discoverImages listing, (beh n).writeOk = true) :
    processAllReceipts listing beh =
      Except.ok
        ⟨((discoverImages listing).filter (fun n => fileSucceeds (beh n))).length,
         ((discoverImages listing).filter
            (fun n => fileSucceeds (beh n))).map get_json_filename,
         (discoverImages listing).length⟩ := by
  by_cases he : (discoverImages listing).isEmpty
  · have h0 : discoverImages listing = [] := by
      cases hd : discoverImages listing with
      | nil => rfl
      | cons a t => rw [hd] at he; simp [List.isEmpty] at he
    simp [processAllReceipts, h0]
  · rw [processAllReceipts, if_neg he]
    exact (foldStep_ok beh _ ⟨0, [], 0⟩ henc hwr).trans (by simp)

/-- C1 witness: of two discovered files the second's service call
fails; the batch still completes with one success, one written output
and two attempted calls. -/
theorem C1_batch_isolation_witness :
    processAllReceipts ["a.jpg", "b.jpg"]
        (fun n =>
          if n = "a.jpg" then ⟨true, Except.ok "\x7b\"vat\": 1\x7d", true⟩
          else ⟨true, Except.error (), true⟩) =
      Except.ok ⟨1, ["a.json"], 2⟩ :=
  (C1_batch_isolation ["a.jpg", "b.jpg"]
      (fun n =>
        if n = "a.jpg" then ⟨true, Except.ok "\x7b\"vat\": 1\x7d", true⟩
        else ⟨true, Except.error (), true⟩)
      (by decide) (by decide)).trans (by rfl)
